import Mathlib

/-!
Verification of the real-time reading ingestion and alarm-state reducer of the
Boreal monitoring front-end.  The development shallowly embeds the two screen
variants the claims cite:

* `main*` definitions follow `src/Pages/Main.js` (conservative variant: server
  timestamp required, no dedup sets);
* `strict*` definitions follow the first component of `src/unnamed/part_000`
  (strict dedup variant: fingerprints, seen/cleared sets, skip-first flag).

JavaScript numbers are modelled as rationals, with `Option ℚ` standing for
"number or NaN" where `none` is NaN.  JavaScript values flowing through the
telemetry payloads are modelled by `JsVal`.
-/

/-- A JavaScript value as it appears in telemetry payloads: a number, a string,
`null`, or `undefined`. -/
inductive JsVal where
  | num (q : ℚ)
  | str (s : String)
  | null
  | undef
deriving DecidableEq, Repr

/-- Whitespace predicate used by the model of JS string trimming. -/
def isWsChar (c : Char) : Bool :=
  c = ' ' || c = '\t' || c = '\n' || c = '\r'

/-- Character-level trim (model of the whitespace stripping JS `Number`
performs on strings). -/
def trimChars (cs : List Char) : List Char :=
  ((cs.dropWhile isWsChar).reverse.dropWhile isWsChar).reverse

/-- Digit-sequence parser used by the model of JS `Number(string)`. -/
def parseDigits (cs : List Char) : Option Nat :=
  if cs = [] then none
  else
    cs.foldl
      (fun acc c =>
        match acc with
        | none => none
        | some n => if c.isDigit then some (n * 10 + (c.toNat - 48)) else none)
      (some 0)

/-- Splits a character list at the first dot, if any. -/
def splitAtDot : List Char → List Char × Option (List Char)
  | [] => ([], none)
  | c :: rest =>
    if c = '.' then ([], some rest)
    else
      let p := splitAtDot rest
      (c :: p.1, p.2)

/-- Builds the rational `±(ip.fp)` from a parsed sign, integer part, fraction
digits `fp`, and fraction length `fl`. -/
def ratOfParts (neg : Bool) (ip fp fl : Nat) : ℚ :=
  let mag : ℚ :=
    if fl = 0 then (ip : ℚ) else ((ip * 10 ^ fl + fp : Nat) : ℚ) / ((10 : ℚ) ^ fl)
  if neg then -mag else mag

/-- Model of JS `Number(s)` for a string `s`: the empty (or all-whitespace)
string coerces to `0`; otherwise an optional sign followed by a decimal numeral
(possibly with a fractional part) parses to its value, and anything else is NaN
(`none`). -/
def parseJsNumber (s : String) : Option ℚ :=
  let t := trimChars s.toList
  if t = [] then some 0
  else
    let signAndDigits : Bool × List Char :=
      match t with
      | '-' :: cs => (true, cs)
      | '+' :: cs => (false, cs)
      | cs => (false, cs)
    let neg := signAndDigits.1
    match splitAtDot signAndDigits.2 with
    | (w, none) => (parseDigits w).map fun n => ratOfParts neg n 0 0
    | (w, some f) =>
      if f.contains '.' then none
      else if w = [] && f = [] then none
      else
        let wn := if w = [] then some 0 else parseDigits w
        let fn := if f = [] then some 0 else parseDigits f
        match wn, fn with
        | some a, some b => some (ratOfParts neg a b f.length)
        | _, _ => none

/-- Model of JS `Number(v)` on a payload value: numbers pass through, strings
are parsed, `Number(null) = 0`, and `Number(undefined)` is NaN (`none`). -/
def jsToNumber : JsVal → Option ℚ
  | .num q => some q
  | .str s => parseJsNumber s
  | .null => some 0
  | .undef => none

/-- Decimal digits of `n`, most significant first, with explicit fuel so the
definition reduces in the kernel. -/
def natDigits : Nat → Nat → List Char
  | 0, _ => []
  | fuel + 1, n =>
    if n = 0 then []
    else natDigits fuel (n / 10) ++ [Char.ofNat (48 + n % 10)]

/-- Decimal rendering of a natural number. -/
def natToStr (n : Nat) : String :=
  if n = 0 then "0" else String.mk (natDigits (n + 1) n)

/-- Rendering of a rational as a string.  It need not match JS float
formatting exactly; what matters for fingerprints is that it is injective on
the numbers the model manipulates. -/
def ratToString (q : ℚ) : String :=
  (if q.num < 0 then "-" else "") ++ natToStr q.num.natAbs ++
    (if q.den = 1 then "" else "/" ++ natToStr q.den)

/-- Model of JS `String(v)`. -/
def jsValToString : JsVal → String
  | .num q => ratToString q
  | .str s => s
  | .null => "null"
  | .undef => "undefined"

/-- Whether `pat` occurs as a contiguous subsequence of `s` (JS
`String.prototype.includes`). -/
def occursIn : List Char → List Char → Bool
  | s@(_ :: rest), pat => pat.isPrefixOf s || occursIn rest pat
  | [], pat => pat.isPrefixOf []

/-- JS `s.includes(pat)` on strings. -/
def strIncludes (s pat : String) : Bool := occursIn s.toList pat.toList

/-- ASCII lower-casing of one character (model of JS `toLowerCase` on the ASCII
keys the payloads use). -/
def lowerChar (c : Char) : Char :=
  if 'A' ≤ c && c ≤ 'Z' then Char.ofNat (c.toNat + 32) else c

/-- ASCII lower-casing of a string. -/
def lowerStr (s : String) : String := String.mk (s.toList.map lowerChar)

/-- From the source (`isPpmKey`): a key names a PPM/LOS reading when its
lower-cased form includes "ppm", or includes both "los" and "ppm", or equals
"ppm", or includes "ppmvalue"; a falsy (empty) key never matches. -/
def isPpmKey (key : String) : Bool :=
  if key = "" then false
  else
    let k := lowerStr key
    strIncludes k "ppm" || (strIncludes k "los" && strIncludes k "ppm") ||
      k = "ppm" || strIncludes k "ppmvalue"

/-- From the source (`normalizePpmValue`): `null`/`undefined` give `null`;
numbers pass through; other values are coerced with `Number` and NaN results
give `null`. -/
def normalizePpmValue : JsVal → Option ℚ
  | .null => none
  | .undef => none
  | .num q => some q
  | .str s => parseJsNumber s

/-- From the source (`makeFingerprint`): the fingerprint of a reading is
`serial|key|value|ts` where `ts` is the server timestamp when truthy (non-empty)
and the local reception timestamp otherwise. -/
def makeFingerprint (serial : Option String) (key : String) (value : JsVal)
    (serverTs : String) (localTs : String) : String :=
  let s := serial.getD ""
  let v := jsValToString value
  let ts := if serverTs = "" then localTs else serverTs
  s ++ "|" ++ key ++ "|" ++ v ++ "|" ++ ts

/-- Alarm color of the big indicator (red). -/
def redColor : String := "#b10303"

/-- Ok color of the big indicator (green). -/
def greenColor : String := "#16b800"

/-- Offline color of the big indicator (gray). -/
def grayColor : String := "#888888"

/-- Models the recurring pattern
`const t = Number.isFinite(Number(x)) ? Number(x) : null` where `x` holds a JS
number-or-null (the threshold ref).  Since `Number(null) = 0` and every number
stored in the threshold register is finite, the finiteness test always
succeeds, so `t` is never null: a null threshold coerces to `0`. -/
def effectiveThreshold (x : Option ℚ) : Option ℚ := some (x.getD 0)

/-- From the source (mqtt handler, big-indicator update):
`setIndicatorColor(t !== null && numeric > t ? '#b10303' : '#16b800')` with
`t = effectiveThreshold thresholdRef`. -/
def handlerIndicatorColor (thresholdRef : Option ℚ) (numeric : ℚ) : String :=
  match effectiveThreshold thresholdRef with
  | some t => if numeric > t then redColor else greenColor
  | none => greenColor

/-- From the source (recompute useEffect, Main.js lines 426-440): when the
reading is null/undefined or coerces to NaN the color is left unchanged; a null
or NaN threshold gives green; otherwise strict comparison decides red/green. -/
def recomputeEffectColor (threshold : Option ℚ) (losReading : JsVal)
    (prevColor : String) : String :=
  match losReading with
  | .null => prevColor
  | .undef => prevColor
  | v =>
    match jsToNumber v with
    | none => prevColor
    | some numeric =>
      match threshold with
      | none => greenColor
      | some t => if numeric > t then redColor else greenColor

/-- From the source (mqtt handlers):
`if (msgSerial && serialNumber && String(msgSerial) !== String(serialNumber))`
discards a message scoped to another device. -/
def serialMismatch (msgSerial : Option String) (serialNumber : String) : Bool :=
  match msgSerial with
  | some ms => ms ≠ "" && serialNumber ≠ "" && ms ≠ serialNumber
  | none => false

/-- From the source (both variants):
`setTableData(prev => [...newPpmRows, ...prev].slice(0, 1000))`. -/
def storeStep {α : Type} (store batch : List α) : List α :=
  (batch ++ store).take 1000

/-- History Store contents after a sequence of accepted batches, starting from
the empty store. -/
def storeAfter {α : Type} (batches : List (List α)) : List α :=
  batches.foldl storeStep []

/-! ## Strict dedup variant (`src/unnamed/part_000`, first component) -/

/-- A table row as built by the strict variant's mqtt handler (the random `id`
field is omitted: no claim depends on it). -/
structure Row where
  TIMESTAMP : String
  VALUE : JsVal
  rawKey : String
  rawValue : JsVal
  fingerprint : String
deriving DecidableEq, Repr

/-- Session state of the strict variant: the React state and refs the mqtt
handler, Clear button, and focus listener read and write. -/
structure StrictState where
  serialNumber : String
  connSerialNo : Option String
  tableData : List Row
  losReading : JsVal
  indicatorColor : String
  threshold : Option ℚ
  seenSet : List String
  clearedSet : List String
  skipFirst : Bool
  isFocused : Bool
deriving DecidableEq, Repr

/-- A telemetry envelope as seen by the strict variant's handler, after the
payload/params unwrapping: the resolved source serial (none when absent or
falsy), the resolved server timestamp candidate (`payload.ts || payload.timestamp
|| msg.ts || msg.timestamp || ''`, so `""` when absent), and the key/value
entries of the params object (`none` when no object params were found). -/
structure Envelope where
  serial : Option String
  serverTs : String
  params : Option (List (String × JsVal))
deriving DecidableEq, Repr

/-- The displayed value of a reading:
`const displayVal = numeric !== null ? numeric : v`. -/
def displayOf (v : JsVal) : JsVal :=
  match normalizePpmValue v with
  | some n => JsVal.num n
  | none => v

/-- One iteration of the strict handler's `Object.entries(params).forEach`:
skip non-PPM keys; consume the skip-first flag on the first PPM entry; drop
cleared or already-seen fingerprints; otherwise mark seen, build the row, and
update the big indicator. -/
def strictProcessEntry (serverTs localTimestamp : String) (serialForFp : Option String)
    (acc : StrictState × List Row) (kv : String × JsVal) : StrictState × List Row :=
  let st := acc.1
  let rows := acc.2
  let k := kv.1
  let v := kv.2
  if !isPpmKey k then (st, rows)
  else if st.skipFirst then ({ st with skipFirst := false }, rows)
  else
    let numeric := normalizePpmValue v
    let displayVal : JsVal := displayOf v
    let fp := makeFingerprint serialForFp k v serverTs localTimestamp
    if fp ∈ st.clearedSet then (st, rows)
    else if fp ∈ st.seenSet then (st, rows)
    else
      let st := { st with seenSet := fp :: st.seenSet }
      let row : Row :=
        { TIMESTAMP := localTimestamp, VALUE := displayVal, rawKey := k,
          rawValue := v, fingerprint := fp }
      let st :=
        match numeric with
        | some n =>
          { st with losReading := JsVal.num n,
                    indicatorColor := handlerIndicatorColor st.threshold n }
        | none => { st with losReading := v }
      (st, rows ++ [row])

/-- The strict variant's `mqtt_message` handler (part_000 lines 199-290):
focused-only processing, params and serial scoping, per-entry skip/dedup, then
a single prepend-and-truncate of the accepted rows. -/
def strictMqttMessage (st : StrictState) (e : Envelope) (localTimestamp : String) :
    StrictState :=
  if !st.isFocused then st
  else
    match e.params with
    | none => st
    | some ps =>
      if serialMismatch e.serial st.serialNumber then st
      else
        let serialForFp : Option String := some (e.serial.getD st.serialNumber)
        let out := ps.foldl (strictProcessEntry e.serverTs localTimestamp serialForFp) (st, [])
        if out.2.isEmpty then out.1
        else { out.1 with tableData := storeStep out.1.tableData out.2 }

/-- The strict variant's Clear button (part_000 lines 538-556): recompute the
visible rows' fingerprints (with empty server timestamp and the row's local
TIMESTAMP) into the cleared set, truncate the table, and re-arm the skip-first
flag.  The seen set is deliberately kept. -/
def clearAction (st : StrictState) : StrictState :=
  let currentFingerprints := st.tableData.map fun it =>
    makeFingerprint (some (st.connSerialNo.getD st.serialNumber)) it.rawKey
      it.rawValue "" it.TIMESTAMP
  { st with clearedSet := currentFingerprints, tableData := [], skipFirst := true }

/-- The strict variant's focus listener (part_000 lines 102-106): regaining
focus re-arms the skip-first flag. -/
def onFocusAction (st : StrictState) : StrictState :=
  { st with isFocused := true, skipFirst := true }

/-- Number of rows carrying a given fingerprint. -/
def fpCount (l : List Row) (fp : String) : Nat :=
  (l.filter fun r => r.fingerprint = fp).length

/-- Model of `new Date().toLocaleString()`: the formatted local reception time
has one-second granularity, so it is a function of the whole-second clock value
alone, ignoring the millisecond part. -/
def jsToLocaleString (secs : Nat) (_msecs : Nat) : String :=
  "loc-" ++ natToStr secs

/-! ## Conservative variant (`src/Pages/Main.js`) -/

/-- A table row as built by Main.js (no fingerprint; the random `id` field is
omitted: no claim depends on it). -/
structure MRow where
  TIMESTAMP : String
  VALUE : JsVal
  rawKey : String
  rawValue : JsVal
deriving DecidableEq, Repr

/-- Session state of the conservative variant. -/
structure MainState where
  serialNumber : String
  tableData : List MRow
  losReading : JsVal
  indicatorColor : String
  threshold : Option ℚ
  isFocused : Bool
deriving DecidableEq, Repr

/-- A telemetry envelope as seen by Main.js: `received_at` (none when absent or
falsy), `ts` (none when `typeof msg.ts === 'undefined'` or `msg.ts === null`),
the resolved source serial, and the resolved params entries. -/
structure MainEnvelope where
  received_at : Option String
  ts : Option JsVal
  serial : Option String
  params : Option (List (String × JsVal))
deriving DecidableEq, Repr

/-- Model of JS `new Date(s).getTime()` parsing for the timestamp strings the
server sends: in this model a string is a valid date iff it is a decimal
numeral (standing for epoch milliseconds); anything else is an Invalid Date. -/
def jsParseDate (s : String) : Option Nat := parseDigits s.toList

/-- Model of `Date.prototype.toISOString` on an epoch value. -/
def jsISOStringOfMillis (q : ℚ) : String := "iso:" ++ ratToString q

/-- Main.js server-timestamp resolution (lines 234-245): prefer a parseable
`received_at`; only when `received_at` is absent, fall back to a numeric `ts`;
`none` when neither yields a valid date. -/
def resolveServerTs (e : MainEnvelope) : Option String :=
  match e.received_at with
  | some s => (jsParseDate s).map fun n => jsISOStringOfMillis (n : ℚ)
  | none =>
    match e.ts with
    | some tv => (jsToNumber tv).map jsISOStringOfMillis
    | none => none

/-- One iteration of Main.js's `Object.entries(params).forEach`: keep PPM
entries (no dedup — "dedupe removed"), stamp them with the resolved server
timestamp, and update the big indicator. -/
def mainProcessEntry (serverReceivedAt : String) (acc : MainState × List MRow)
    (kv : String × JsVal) : MainState × List MRow :=
  let st := acc.1
  let rows := acc.2
  let k := kv.1
  let v := kv.2
  if !isPpmKey k then (st, rows)
  else
    let numeric := normalizePpmValue v
    let displayVal : JsVal := displayOf v
    let row : MRow :=
      { TIMESTAMP := serverReceivedAt, VALUE := displayVal, rawKey := k, rawValue := v }
    let st :=
      match numeric with
      | some n =>
        { st with losReading := JsVal.num n,
                  indicatorColor := handlerIndicatorColor st.threshold n }
      | none => { st with losReading := v }
    (st, rows ++ [row])

/-- Main.js's `mqtt_message` handler (lines 230-305): focused-only processing;
an envelope with no parseable server timestamp is discarded entirely; then
params and serial scoping, per-entry processing, and prepend-and-truncate. -/
def mainMqttMessage (st : MainState) (e : MainEnvelope) : MainState :=
  if !st.isFocused then st
  else
    match resolveServerTs e with
    | none => st
    | some serverReceivedAt =>
      match e.params with
      | none => st
      | some ps =>
        if serialMismatch e.serial st.serialNumber then st
        else
          let out := ps.foldl (mainProcessEntry serverReceivedAt) (st, [])
          if out.2.isEmpty then out.1
          else { out.1 with tableData := storeStep out.1.tableData out.2 }

/-- Main.js's connectivity useEffect (lines 327-344): going offline grays the
indicator, nulls the reading, and clears the table; coming online recomputes
the color from the last reading and the (ref-coerced) threshold. -/
def connectivityEffect (st : MainState) (isOnline : Bool) : MainState :=
  if !isOnline then
    { st with indicatorColor := grayColor, losReading := JsVal.null, tableData := [] }
  else
    let numericAndT : Option (ℚ × ℚ) :=
      match st.losReading, effectiveThreshold st.threshold with
      | JsVal.null, _ => none
      | JsVal.undef, _ => none
      | v, some t => (jsToNumber v).map fun n => (n, t)
      | _, none => none
    match numericAndT with
    | some nt => { st with indicatorColor := if nt.1 > nt.2 then redColor else greenColor }
    | none => { st with indicatorColor := greenColor }

/-- A push `threshold_updated` message (Main.js lines 188-214). -/
structure ThresholdMsg where
  serial : Option String
  indicator : Option String
  threshold : JsVal
deriving DecidableEq, Repr

/-- Main.js's `handleThresholdUpdated` (lines 188-214): scoped to this serial
and the `los_ppm` indicator; a NaN threshold resets to null; otherwise the
threshold is set and the indicator recomputed against the last reading; in
either case the table is cleared. -/
def handleThresholdUpdated (st : MainState) (m : ThresholdMsg) : MainState :=
  match m.serial with
  | none => st
  | some sn =>
    if sn = "" then st
    else if sn ≠ st.serialNumber then st
    else
      match m.indicator with
      | none => st
      | some ind =>
        if ind = "" || lowerStr ind ≠ "los_ppm" then st
        else
          match jsToNumber m.threshold with
          | none => { st with threshold := none, tableData := [] }
          | some n =>
            let st' := { st with threshold := some n }
            let st'' :=
              match st'.losReading with
              | JsVal.null => st'
              | JsVal.undef => st'
              | v =>
                match jsToNumber v with
                | none => st'
                | some lastLos =>
                  { st' with indicatorColor := if lastLos > n then redColor else greenColor }
            { st'' with tableData := [] }

/-- Outcome of one threshold fetch (Main.js lines 352-382): `ok losRaw` models
a successful response whose resolved `los_ppm` field is `losRaw` (null when
absent); `fail` models a non-ok response or a network error. -/
inductive FetchResult where
  | ok (losRaw : JsVal)
  | fail
deriving DecidableEq, Repr

/-- The new threshold and the `t` used for the immediate recompute in the ok
branch of `fetchThreshold`: `los = losRaw === null ? null : Number(losRaw)`,
`setThreshold(Number.isFinite(los) ? los : null)`, and
`t = Number.isFinite(Number(los)) ? Number(los) : null` — so a null `los`
gives threshold null but `t = 0` (`Number(null) = 0`), while a NaN `los`
gives threshold null and `t` null. -/
def fetchOkOutcome (losRaw : JsVal) : Option ℚ × Option ℚ :=
  match losRaw with
  | JsVal.null => (none, some 0)
  | JsVal.undef => (none, some 0)
  | v =>
    match jsToNumber v with
    | none => (none, none)
    | some q => (some q, some q)

/-- Main.js's `fetchThreshold` state change (lines 352-382): a failed fetch
resets the threshold to null; a successful fetch stores the resolved value and
recomputes the indicator against the last reading.  No branch touches the
table. -/
def fetchThresholdApply (st : MainState) (r : FetchResult) : MainState :=
  match r with
  | .fail => { st with threshold := none }
  | .ok losRaw =>
    let out := fetchOkOutcome losRaw
    let st' := { st with threshold := out.1 }
    match st'.losReading with
    | JsVal.null => st'
    | JsVal.undef => st'
    | v =>
      match jsToNumber v with
      | none => st'
      | some lastLos =>
        { st' with indicatorColor :=
            match out.2 with
            | some t => if lastLos > t then redColor else greenColor
            | none => greenColor }

/-! ## Alarm view projection (both variants, identical code) -/

/-- The filter callback of the alarms useMemo: coerce the raw value with
`Number`, reject NaN, compare strictly against the threshold. -/
def alarmRowPred (t : ℚ) (row : Row) : Bool :=
  match jsToNumber row.rawValue with
  | none => false
  | some numeric => numeric > t

/-- The alarms useMemo (Main.js lines 443-454): null threshold gives the empty
list; otherwise the rows whose raw value coerces to a number strictly greater
than the threshold, in store order, capped at 1000. -/
def alarms (threshold : Option ℚ) (tableData : List Row) : List Row :=
  match threshold with
  | none => []
  | some t => (tableData.filter (alarmRowPred t)).take 1000

/-- What the alarms tab renders (Main.js lines 627-648): an explicit
"threshold not set" prompt when the threshold is null, the alarm rows
otherwise. -/
inductive AlarmView where
  | notConfigured
  | list (rows : List Row)
deriving DecidableEq, Repr

/-- The alarms tab as a function of threshold and store snapshot. -/
def alarmView (threshold : Option ℚ) (tableData : List Row) : AlarmView :=
  match threshold with
  | none => AlarmView.notConfigured
  | some t => AlarmView.list (alarms (some t) tableData)

/-! ## Concrete fixtures used by witnesses and counterexamples -/

/-- A concrete accepted PPM row (value 75, key "ppm", serial "SN1"). -/
def exRow75 : Row :=
  { TIMESTAMP := "loc-1", VALUE := JsVal.num 75, rawKey := "ppm",
    rawValue := JsVal.num 75, fingerprint := "SN1|ppm|75|loc-1" }

/-- A concrete Main.js row. -/
def exMRow : MRow :=
  { TIMESTAMP := "iso:1", VALUE := JsVal.num 75, rawKey := "ppm",
    rawValue := JsVal.num 75 }

/-- A concrete Main.js session state holding one row and threshold 50. -/
def exMainState : MainState :=
  { serialNumber := "SN1", tableData := [exMRow], losReading := JsVal.null,
    indicatorColor := greenColor, threshold := some 50, isFocused := true }

/-- A concrete scoped threshold push message. -/
def exThresholdMsg : ThresholdMsg :=
  { serial := some "SN1", indicator := some "los_ppm", threshold := JsVal.num 60 }

/-! ## History Store lemmas -/

lemma take_append_take {α : Type} (x y : List α) (n : Nat) :
    (x ++ y.take n).take n = (x ++ y).take n := by
  rw [List.take_append_eq_append_take, List.take_append_eq_append_take,
    List.take_take]
  congr 1
  exact congrArg y.take (Nat.min_eq_left (Nat.sub_le n x.length))

lemma storeStep_of_take {α : Type} (init0 b : List α) :
    storeStep (init0.take 1000) b = (b ++ init0).take 1000 := by
  rw [storeStep, take_append_take]

lemma foldl_storeStep {α : Type} (bs : List (List α)) :
    ∀ init0 : List α,
      bs.foldl storeStep (init0.take 1000) = (bs.reverse.flatten ++ init0).take 1000 := by
  induction bs with
  | nil => intro init0; simp
  | cons b bs ih =>
    intro init0
    rw [List.foldl_cons, storeStep_of_take, ih (b ++ init0)]
    congr 1
    simp

/-- C3: for every sequence of accepted batches, the History Store holds the
prefix of length at most 1000 of the accepted readings in newest-first arrival
order (batch elements keep their in-batch order, later batches come first), so
its length never exceeds 1000 and accepted insertions are never reordered. -/
theorem historyStore_bound_and_order {α : Type} (batches : List (List α)) :
    storeAfter batches = batches.reverse.flatten.take 1000 ∧
    (storeAfter batches).length ≤ 1000 := by
  have h : storeAfter batches = (batches.reverse.flatten ++ []).take 1000 := by
    have h0 := foldl_storeStep (α := α) batches []
    simpa [storeAfter] using h0
  refine ⟨by simpa using h, ?_⟩
  rw [h]
  exact List.length_take_le _ _

/-! ## Alarm view projection -/

lemma alarmRowPred_iff (t : ℚ) (row : Row) :
    alarmRowPred t row = true ↔ ∃ V, jsToNumber row.rawValue = some V ∧ V > t := by
  unfold alarmRowPred
  cases h : jsToNumber row.rawValue <;> simp [h]

/-- C2: for a History Store snapshot within capacity and a non-null threshold
`t`, a row appears in the alarms list iff its raw value coerces to a number
strictly greater than `t` (rows with value at most `t`, or NaN-coercing value,
never appear); the list is an order-preserving sublist of the snapshot and is
capped at 1000; a null threshold renders an explicit not-configured view,
distinct from every (possibly empty) row list. -/
theorem alarmProjection_correct (t : ℚ) (snapshot : List Row)
    (hlen : snapshot.length ≤ 1000) :
    (∀ row, row ∈ alarms (some t) snapshot ↔
        row ∈ snapshot ∧ ∃ V, jsToNumber row.rawValue = some V ∧ V > t) ∧
    List.Sublist (alarms (some t) snapshot) snapshot ∧
    (∀ (thr : Option ℚ) (snap : List Row), (alarms thr snap).length ≤ 1000) ∧
    (∀ snap : List Row, alarmView none snap = AlarmView.notConfigured) ∧
    (∀ rows : List Row, AlarmView.notConfigured ≠ AlarmView.list rows) := by
  have hfull : alarms (some t) snapshot = snapshot.filter (alarmRowPred t) := by
    unfold alarms
    exact List.take_of_length_le ((List.filter_sublist snapshot).length_le.trans hlen)
  refine ⟨?_, ?_, ?_, ?_, ?_⟩
  · intro row
    rw [hfull, List.mem_filter, alarmRowPred_iff]
  · rw [hfull]
    exact List.filter_sublist snapshot
  · intro thr snap
    cases thr with
    | none => simp [alarms]
    | some t2 => exact List.length_take_le _ _
  · intro snap
    rfl
  · intro rows h
    exact AlarmView.noConfusion h

/-- Closed witness for `alarmProjection_correct`. -/
theorem alarmProjection_correct_witness :
    ([exRow75] : List Row).length ≤ 1000 ∧
    (exRow75 ∈ alarms (some 50) [exRow75] ↔
      exRow75 ∈ [exRow75] ∧ ∃ V, jsToNumber exRow75.rawValue = some V ∧ V > 50) :=
  ⟨by decide, (alarmProjection_correct 50 [exRow75] (by decide)).1 exRow75⟩

/-! ## Indicator and connectivity -/

/-- C1 (code-bug evidence): at the failing input "device online, threshold
null, numeric reading 75", the mqtt handler's inline indicator update computes
`t = Number(null) = 0` (the `Number.isFinite(Number(x))` guard cannot filter a
null threshold) and shows Alarm red, while the dedicated recompute effect in
the same file yields Ok green as the claim requires — the two code sites
disagree. -/
theorem indicator_nullThreshold_slip :
    effectiveThreshold none = some 0 ∧
    handlerIndicatorColor none 75 = redColor ∧
    recomputeEffectColor none (JsVal.num 75) greenColor = greenColor ∧
    redColor ≠ greenColor := by
  refine ⟨rfl, by decide, by decide, by decide⟩

/-- C5: a connectivity transition to offline synchronously grays the
indicator, resets the latest value to null, and clears the History Store. -/
theorem offlineTransition_resets (st : MainState) :
    (connectivityEffect st false).indicatorColor = grayColor ∧
    (connectivityEffect st false).losReading = JsVal.null ∧
    (connectivityEffect st false).tableData = [] := by
  refine ⟨?_, ?_, ?_⟩ <;> simp [connectivityEffect]

/-! ## Threshold register -/

/-- C6 (amended): a push threshold-changed event scoped to this device and the
los_ppm quantity clears the History Store, stores the coerced threshold, and
recomputes the indicator against the last numeric reading; a configuration-API
refresh updates the threshold but never clears the History Store. -/
theorem thresholdChange_clear_behavior (st : MainState) (m : ThresholdMsg) (ind : String)
    (hsn : m.serial = some st.serialNumber) (hne : st.serialNumber ≠ "")
    (hind : m.indicator = some ind) (hindne : ind ≠ "")
    (hlos : lowerStr ind = "los_ppm") :
    (handleThresholdUpdated st m).tableData = [] ∧
    (handleThresholdUpdated st m).threshold = jsToNumber m.threshold ∧
    (∀ n lastLos, jsToNumber m.threshold = some n →
      st.losReading ≠ JsVal.null → st.losReading ≠ JsVal.undef →
      jsToNumber st.losReading = some lastLos →
      (handleThresholdUpdated st m).indicatorColor =
        (if lastLos > n then redColor else greenColor)) ∧
    (∀ (st2 : MainState) (r : FetchResult),
      (fetchThresholdApply st2 r).tableData = st2.tableData) := by
  refine ⟨?_, ?_, ?_, ?_⟩
  · cases h : jsToNumber m.threshold with
    | none => simp [handleThresholdUpdated, hsn, hne, hind, hindne, hlos, h]
    | some n =>
      simp only [handleThresholdUpdated, hsn, hne, hind, hindne, hlos, h]
      simp [hne, hindne, hlos]
  · cases h : jsToNumber m.threshold with
    | none => simp [handleThresholdUpdated, hsn, hne, hind, hindne, hlos, h]
    | some n =>
      simp only [handleThresholdUpdated, hsn, hne, hind, hindne, hlos, h]
      cases hv : st.losReading <;>
        simp [hne, hindne, hlos, hv, jsToNumber] <;> split <;> simp
  · intro n lastLos h hnull hundef hq
    cases hv : st.losReading with
    | null => exact absurd hv hnull
    | undef => exact absurd hv hundef
    | num q =>
      rw [hv] at hq
      simp only [handleThresholdUpdated, hsn, hne, hind, hindne, hlos, h, hv]
      simp [hne, hindne, hlos, hq]
    | str s =>
      rw [hv] at hq
      simp only [jsToNumber] at hq
      simp only [handleThresholdUpdated, hsn, hne, hind, hindne, hlos, h, hv]
      simp [hne, hindne, hlos, jsToNumber, hq]
  · intro st2 r
    cases r with
    | fail => rfl
    | ok losRaw =>
      cases hv : st2.losReading <;>
        simp [fetchThresholdApply, hv] <;> split <;> simp

/-- Closed witness for `thresholdChange_clear_behavior`. -/
theorem thresholdChange_clear_behavior_witness :
    (handleThresholdUpdated exMainState exThresholdMsg).tableData = [] ∧
    (handleThresholdUpdated exMainState exThresholdMsg).threshold =
      jsToNumber exThresholdMsg.threshold := by
  have h := thresholdChange_clear_behavior exMainState exThresholdMsg "los_ppm"
    (by decide) (by decide) (by decide) (by decide) (by decide)
  exact ⟨h.1, h.2.1⟩

/-- C6 counterexample: a successful configuration-API refresh changes the
threshold from 50 to 60 yet leaves the non-empty History Store untouched, so
"every threshold change clears the History Store" fails on the code. -/
theorem fetchThreshold_no_clear_counterexample :
    (fetchThresholdApply exMainState (FetchResult.ok (JsVal.num 60))).threshold = some 60 ∧
    exMainState.threshold = some 50 ∧
    (fetchThresholdApply exMainState (FetchResult.ok (JsVal.num 60))).tableData = [exMRow] ∧
    ([exMRow] : List MRow) ≠ ([] : List MRow) := by
  refine ⟨by decide, by decide, by decide, by decide⟩

/-! ## Strict handler: single-entry characterizations -/

/-- A concrete strict-variant session state (threshold 50, empty store and
sets, guard disarmed, focused). -/
def exStrictState : StrictState :=
  { serialNumber := "SN1", connSerialNo := none, tableData := [],
    losReading := JsVal.null, indicatorColor := greenColor, threshold := some 50,
    seenSet := [], clearedSet := [], skipFirst := false, isFocused := true }

lemma storeStep_single {α : Type} (l : List α) (a : α) :
    storeStep l [a] = a :: l.take 999 := rfl

lemma strict_skip_single (st : StrictState) (serial : Option String)
    (serverTs lts k : String) (v : JsVal)
    (hfoc : st.isFocused = true) (hskip : st.skipFirst = true)
    (hser : serialMismatch serial st.serialNumber = false)
    (hppm : isPpmKey k = true) :
    strictMqttMessage st (Envelope.mk serial serverTs (some [(k, v)])) lts =
      { st with skipFirst := false } := by
  simp [strictMqttMessage, hfoc, hser, strictProcessEntry, hppm, hskip]

lemma strict_dup_single (st : StrictState) (serial : Option String)
    (serverTs lts k : String) (v : JsVal)
    (hfoc : st.isFocused = true) (hskip : st.skipFirst = false)
    (hser : serialMismatch serial st.serialNumber = false)
    (hppm : isPpmKey k = true)
    (hseen : makeFingerprint (some (serial.getD st.serialNumber)) k v serverTs lts ∈ st.seenSet ∨
      makeFingerprint (some (serial.getD st.serialNumber)) k v serverTs lts ∈ st.clearedSet) :
    strictMqttMessage st (Envelope.mk serial serverTs (some [(k, v)])) lts = st := by
  by_cases hc : makeFingerprint (some (serial.getD st.serialNumber)) k v serverTs lts ∈ st.clearedSet
  · simp [strictMqttMessage, hfoc, hser, strictProcessEntry, hppm, hskip, hc]
  · have hs := hseen.resolve_right hc
    simp [strictMqttMessage, hfoc, hser, strictProcessEntry, hppm, hskip, hc, hs]

lemma strict_accept_single (st : StrictState) (serial : Option String)
    (serverTs lts k : String) (v : JsVal)
    (hfoc : st.isFocused = true) (hskip : st.skipFirst = false)
    (hser : serialMismatch serial st.serialNumber = false)
    (hppm : isPpmKey k = true)
    (hcl : makeFingerprint (some (serial.getD st.serialNumber)) k v serverTs lts ∉ st.clearedSet)
    (hsn : makeFingerprint (some (serial.getD st.serialNumber)) k v serverTs lts ∉ st.seenSet) :
    strictMqttMessage st (Envelope.mk serial serverTs (some [(k, v)])) lts =
      { st with
        seenSet := makeFingerprint (some (serial.getD st.serialNumber)) k v serverTs lts :: st.seenSet,
        losReading := displayOf v,
        indicatorColor :=
          match normalizePpmValue v with
          | some n => handlerIndicatorColor st.threshold n
          | none => st.indicatorColor,
        tableData :=
          ({ TIMESTAMP := lts, VALUE := displayOf v, rawKey := k, rawValue := v,
             fingerprint := makeFingerprint (some (serial.getD st.serialNumber)) k v serverTs lts } : Row)
            :: st.tableData.take 999 } := by
  cases hn : normalizePpmValue v <;>
    simp [strictMqttMessage, hfoc, hser, strictProcessEntry, hppm, hskip, hcl, hsn,
      hn, displayOf, storeStep_single]

lemma fpCount_take_le (l : List Row) (n : Nat) (fp : String) :
    fpCount (l.take n) fp ≤ fpCount l fp :=
  List.Sublist.length_le (List.Sublist.filter _ (List.take_sublist n l))

lemma fpCount_cons_self (r : Row) (l : List Row) (fp : String) (h : r.fingerprint = fp) :
    fpCount (r :: l) fp = fpCount l fp + 1 := by
  simp [fpCount, List.filter, h]

/-- Accepting a fresh single-reading envelope and then replaying the identical
envelope: the replay is a no-op and the store holds exactly one row for the
fingerprint. -/
lemma strict_accept_then_dup (st : StrictState) (serial : Option String)
    (serverTs lts k : String) (v : JsVal)
    (hfoc : st.isFocused = true) (hskip : st.skipFirst = false)
    (hser : serialMismatch serial st.serialNumber = false)
    (hppm : isPpmKey k = true)
    (hcl : makeFingerprint (some (serial.getD st.serialNumber)) k v serverTs lts ∉ st.clearedSet)
    (hsn : makeFingerprint (some (serial.getD st.serialNumber)) k v serverTs lts ∉ st.seenSet)
    (hcount : fpCount st.tableData (makeFingerprint (some (serial.getD st.serialNumber)) k v serverTs lts) = 0) :
    strictMqttMessage (strictMqttMessage st (Envelope.mk serial serverTs (some [(k, v)])) lts)
        (Envelope.mk serial serverTs (some [(k, v)])) lts =
      strictMqttMessage st (Envelope.mk serial serverTs (some [(k, v)])) lts ∧
    fpCount (strictMqttMessage st (Envelope.mk serial serverTs (some [(k, v)])) lts).tableData
        (makeFingerprint (some (serial.getD st.serialNumber)) k v serverTs lts) = 1 := by
  have hacc := strict_accept_single st serial serverTs lts k v hfoc hskip hser hppm hcl hsn
  constructor
  · rw [hacc]
    apply strict_dup_single <;> simp [hfoc, hskip, hser, hppm]
  · rw [hacc]
    have h1 := fpCount_cons_self
      ({ TIMESTAMP := lts, VALUE := displayOf v, rawKey := k, rawValue := v,
         fingerprint := makeFingerprint (some (serial.getD st.serialNumber)) k v serverTs lts } : Row)
      (st.tableData.take 999)
      (makeFingerprint (some (serial.getD st.serialNumber)) k v serverTs lts) rfl
    have h2 := fpCount_take_le st.tableData 999
      (makeFingerprint (some (serial.getD st.serialNumber)) k v serverTs lts)
    rw [hcount] at h2
    simp only [h1]
    omega

/-! ## Skip-first flag propagation -/

lemma processEntry_skip_false (serverTs lts : String) (sf : Option String)
    (acc : StrictState × List Row) (kv : String × JsVal)
    (h : acc.1.skipFirst = false) :
    (strictProcessEntry serverTs lts sf acc kv).1.skipFirst = false := by
  unfold strictProcessEntry
  dsimp only
  split
  · exact h
  · split
    · rfl
    · split
      · exact h
      · split
        · exact h
        · split
          · exact h
          · exact h

lemma foldl_processEntry_skip_false (serverTs lts : String) (sf : Option String)
    (ps : List (String × JsVal)) :
    ∀ (acc : StrictState × List Row), acc.1.skipFirst = false →
      (ps.foldl (strictProcessEntry serverTs lts sf) acc).1.skipFirst = false := by
  induction ps with
  | nil => intro acc h; exact h
  | cons kv ps ih =>
    intro acc h
    exact ih _ (processEntry_skip_false serverTs lts sf acc kv h)

lemma strictMqtt_skip_stays_false (st : StrictState) (e : Envelope) (lts : String)
    (h : st.skipFirst = false) : (strictMqttMessage st e lts).skipFirst = false := by
  cases hf : st.isFocused with
  | false => simpa [strictMqttMessage, hf] using h
  | true =>
    cases hp : e.params with
    | none => simpa [strictMqttMessage, hf, hp] using h
    | some ps =>
      by_cases hs : serialMismatch e.serial st.serialNumber
      · simpa [strictMqttMessage, hf, hp, hs] using h
      · have hout := foldl_processEntry_skip_false e.serverTs lts
          (some (e.serial.getD st.serialNumber)) ps (st, []) h
        simp only [strictMqttMessage, hf, hp, hs, Bool.not_true, Bool.false_eq_true,
          if_false]
        split <;> simpa using hout

/-! ## Claims about the strict ingestion pipeline -/

/-- C4: delivering the same single-reading envelope twice (identical
fingerprint) leaves exactly one row for that fingerprint in the History Store;
when the skip-first guard is disarmed the second delivery is discarded as a
duplicate and changes nothing at all, and even when the guard is armed the
store still ends with exactly one row for the fingerprint. -/
theorem duplicateDelivery_idempotent (st : StrictState) (serial : Option String)
    (serverTs lts k : String) (v : JsVal)
    (hfoc : st.isFocused = true)
    (hser : serialMismatch serial st.serialNumber = false)
    (hppm : isPpmKey k = true)
    (hcl : makeFingerprint (some (serial.getD st.serialNumber)) k v serverTs lts ∉ st.clearedSet)
    (hsn : makeFingerprint (some (serial.getD st.serialNumber)) k v serverTs lts ∉ st.seenSet)
    (hcount : fpCount st.tableData
      (makeFingerprint (some (serial.getD st.serialNumber)) k v serverTs lts) = 0) :
    (st.skipFirst = false →
      strictMqttMessage (strictMqttMessage st (Envelope.mk serial serverTs (some [(k, v)])) lts)
          (Envelope.mk serial serverTs (some [(k, v)])) lts =
        strictMqttMessage st (Envelope.mk serial serverTs (some [(k, v)])) lts ∧
      fpCount (strictMqttMessage st (Envelope.mk serial serverTs (some [(k, v)])) lts).tableData
          (makeFingerprint (some (serial.getD st.serialNumber)) k v serverTs lts) = 1) ∧
    (st.skipFirst = true →
      fpCount (strictMqttMessage (strictMqttMessage st (Envelope.mk serial serverTs (some [(k, v)])) lts)
          (Envelope.mk serial serverTs (some [(k, v)])) lts).tableData
          (makeFingerprint (some (serial.getD st.serialNumber)) k v serverTs lts) = 1) := by
  constructor
  · intro hskip
    exact strict_accept_then_dup st serial serverTs lts k v hfoc hskip hser hppm hcl hsn hcount
  · intro hskip
    have h1 := strict_skip_single st serial serverTs lts k v hfoc hskip hser hppm
    rw [h1]
    have h2 := strict_accept_single { st with skipFirst := false } serial serverTs lts k v
      hfoc rfl hser hppm hcl hsn
    rw [h2]
    have h3 := fpCount_cons_self
      ({ TIMESTAMP := lts, VALUE := displayOf v, rawKey := k, rawValue := v,
         fingerprint := makeFingerprint (some (serial.getD st.serialNumber)) k v serverTs lts } : Row)
      (st.tableData.take 999)
      (makeFingerprint (some (serial.getD st.serialNumber)) k v serverTs lts) rfl
    have h4 := fpCount_take_le st.tableData 999
      (makeFingerprint (some (serial.getD st.serialNumber)) k v serverTs lts)
    rw [hcount] at h4
    simp only [h3]
    omega

/-- Closed witness for `duplicateDelivery_idempotent`. -/
theorem duplicateDelivery_idempotent_witness :
    exStrictState.skipFirst = false ∧
    fpCount (strictMqttMessage exStrictState (Envelope.mk none "" (some [("ppm", JsVal.num 75)])) "loc-1").tableData
      (makeFingerprint (some (Option.getD none exStrictState.serialNumber)) "ppm" (JsVal.num 75) "" "loc-1") = 1 := by
  have h := (duplicateDelivery_idempotent exStrictState none "" "loc-1" "ppm" (JsVal.num 75)
    rfl (by decide) (by decide) (by decide) (by decide) (by decide)).1 rfl
  exact ⟨rfl, h.2⟩

/-! ## Clear semantics -/

/-- A strict-variant state in which one reading (fingerprinted with its local
timestamp) has been accepted and is visible. -/
def exStrictSeen : StrictState :=
  { exStrictState with tableData := [exRow75], seenSet := ["SN1|ppm|75|loc-1"] }

/-- C7 counterexample: immediately after Clear runs from a fresh session, a
genuinely new envelope (its fingerprint is in neither the cleared set nor the
seen set) is NOT accepted — the re-armed skip-first guard consumes it — which
refutes "a genuinely new envelope (different value or timestamp) is accepted
normally" after Clear. -/
theorem clear_drops_first_new_counterexample :
    (clearAction exStrictState).clearedSet = [] ∧
    (clearAction exStrictState).seenSet = [] ∧
    (strictMqttMessage (clearAction exStrictState)
        (Envelope.mk none "" (some [("ppm", JsVal.num 75)])) "loc-9").tableData = [] := by
  refine ⟨rfl, rfl, by decide⟩

/-- C7 (amended): Clear captures the (locally recomputed) fingerprints of all
currently-visible readings into the ClearedSet before truncating the History
Store, keeps the SeenSet, and re-arms the skip-first flag; replaying an
envelope whose reading was already displayed this session (fingerprint in the
SeenSet) never reintroduces it, however often it is replayed; the first
PPM reading received after the clear — even a genuinely new one — is consumed
by the re-armed skip-first guard, and only the next genuinely new envelope is
accepted normally. -/
theorem clear_semantics (st : StrictState) (hfoc : st.isFocused = true) :
    ((clearAction st).clearedSet = st.tableData.map (fun it =>
        makeFingerprint (some (st.connSerialNo.getD st.serialNumber)) it.rawKey
          it.rawValue "" it.TIMESTAMP) ∧
      (clearAction st).tableData = [] ∧
      (clearAction st).seenSet = st.seenSet ∧
      (clearAction st).skipFirst = true) ∧
    (∀ (serial : Option String) (serverTs lts k : String) (v : JsVal),
      serialMismatch serial st.serialNumber = false →
      isPpmKey k = true →
      makeFingerprint (some (serial.getD st.serialNumber)) k v serverTs lts ∈ st.seenSet →
      (strictMqttMessage (clearAction st)
          (Envelope.mk serial serverTs (some [(k, v)])) lts).tableData = [] ∧
      (strictMqttMessage
          (strictMqttMessage (clearAction st) (Envelope.mk serial serverTs (some [(k, v)])) lts)
          (Envelope.mk serial serverTs (some [(k, v)])) lts).tableData = []) ∧
    (∀ (serial : Option String) (serverTs lts k : String) (v : JsVal),
      serialMismatch serial st.serialNumber = false →
      isPpmKey k = true →
      strictMqttMessage (clearAction st) (Envelope.mk serial serverTs (some [(k, v)])) lts =
        { clearAction st with skipFirst := false } ∧
      (∀ (serverTs2 lts2 k2 : String) (v2 : JsVal),
        isPpmKey k2 = true →
        makeFingerprint (some (serial.getD st.serialNumber)) k2 v2 serverTs2 lts2 ∉
          (clearAction st).clearedSet →
        makeFingerprint (some (serial.getD st.serialNumber)) k2 v2 serverTs2 lts2 ∉ st.seenSet →
        (strictMqttMessage
            (strictMqttMessage (clearAction st) (Envelope.mk serial serverTs (some [(k, v)])) lts)
            (Envelope.mk serial serverTs2 (some [(k2, v2)])) lts2).tableData =
          [({ TIMESTAMP := lts2, VALUE := displayOf v2, rawKey := k2, rawValue := v2,
              fingerprint := makeFingerprint (some (serial.getD st.serialNumber)) k2 v2 serverTs2 lts2 } : Row)])) := by
  refine ⟨⟨rfl, rfl, rfl, rfl⟩, ?_, ?_⟩
  · intro serial serverTs lts k v hser hppm hseen
    have h1 := strict_skip_single (clearAction st) serial serverTs lts k v hfoc rfl hser hppm
    constructor
    · rw [h1]
      rfl
    · rw [h1]
      have h2 := strict_dup_single { clearAction st with skipFirst := false }
        serial serverTs lts k v hfoc rfl hser hppm (Or.inl hseen)
      rw [h2]
      rfl
  · intro serial serverTs lts k v hser hppm
    have h1 := strict_skip_single (clearAction st) serial serverTs lts k v hfoc rfl hser hppm
    refine ⟨h1, ?_⟩
    intro serverTs2 lts2 k2 v2 hppm2 hcl2 hsn2
    rw [h1]
    have h2 := strict_accept_single { clearAction st with skipFirst := false }
      serial serverTs2 lts2 k2 v2 hfoc rfl hser hppm2 hcl2 hsn2
    rw [h2]
    rfl

/-- Closed witness for `clear_semantics`. -/
theorem clear_semantics_witness :
    (strictMqttMessage (clearAction exStrictSeen)
        (Envelope.mk none "" (some [("ppm", JsVal.num 75)])) "loc-1").tableData = [] ∧
    (strictMqttMessage (strictMqttMessage (clearAction exStrictSeen)
          (Envelope.mk none "" (some [("ppm", JsVal.num 75)])) "loc-1")
        (Envelope.mk none "" (some [("ppm", JsVal.num 75)])) "loc-1").tableData = [] :=
  (clear_semantics exStrictSeen rfl).2.1 none "" "loc-1" "ppm" (JsVal.num 75)
    (by decide) (by decide) (by decide)

/-! ## Skip-first guard -/

/-- A strict-variant state with the skip-first flag armed and one fingerprint
already seen this session. -/
def exStrictSkipDup : StrictState :=
  { exStrictState with skipFirst := true, seenSet := ["SN1|ppm|75|loc-1"] }

/-- A strict-variant state with the skip-first flag armed. -/
def exStrictSkip : StrictState := { exStrictState with skipFirst := true }

/-- C9 counterexample: with the flag armed and the incoming reading a duplicate
the dedup guard would reject anyway (delivering it with the flag off is a
no-op, so it is not an "accepted-but-not-yet-recorded" reading), the flag still
consumes it and disables itself — the run consumed zero accepted readings,
refuting "the flag consumes exactly one accepted-but-not-yet-recorded
reading". -/
theorem skipFirst_consumed_by_duplicate_counterexample :
    (strictMqttMessage exStrictSkipDup
        (Envelope.mk none "" (some [("ppm", JsVal.num 75)])) "loc-1").skipFirst = false ∧
    (strictMqttMessage exStrictSkipDup
        (Envelope.mk none "" (some [("ppm", JsVal.num 75)])) "loc-1").tableData = [] ∧
    strictMqttMessage { exStrictSkipDup with skipFirst := false }
        (Envelope.mk none "" (some [("ppm", JsVal.num 75)])) "loc-1" =
      { exStrictSkipDup with skipFirst := false } := by
  refine ⟨by decide, by decide, by decide⟩

/-- C9 (amended): after each mount, focus regain, or Clear the skip-first flag
is armed; while armed, the handler consumes the first incoming PPM-keyed
reading — before any dedup check, whether or not the guard would have accepted
it — dropping it without recording it or marking it seen, changing nothing but
the flag, which disables itself; the flag then stays disabled under every
subsequent message until the next clear or refocus. -/
theorem skipFirst_guard_behavior (st : StrictState) (serial : Option String)
    (serverTs lts k : String) (v : JsVal)
    (hfoc : st.isFocused = true) (hskip : st.skipFirst = true)
    (hser : serialMismatch serial st.serialNumber = false)
    (hppm : isPpmKey k = true) :
    (onFocusAction st).skipFirst = true ∧
    (clearAction st).skipFirst = true ∧
    strictMqttMessage st (Envelope.mk serial serverTs (some [(k, v)])) lts =
      { st with skipFirst := false } ∧
    (∀ (st2 : StrictState) (e : Envelope) (l2 : String),
      st2.skipFirst = false → (strictMqttMessage st2 e l2).skipFirst = false) :=
  ⟨rfl, rfl, strict_skip_single st serial serverTs lts k v hfoc hskip hser hppm,
    fun st2 e l2 h2 => strictMqtt_skip_stays_false st2 e l2 h2⟩

/-- Closed witness for `skipFirst_guard_behavior`. -/
theorem skipFirst_guard_behavior_witness :
    strictMqttMessage exStrictSkip (Envelope.mk none "" (some [("ppm", JsVal.num 75)])) "loc-1" =
      { exStrictSkip with skipFirst := false } :=
  (skipFirst_guard_behavior exStrictSkip none "" "loc-1" "ppm" (JsVal.num 75)
    rfl rfl (by decide) (by decide)).2.2.1

/-! ## Timestamp policies -/

/-- A Main.js envelope whose `received_at` is present but unparseable (and whose
`ts` would not rescue it: `received_at` being present short-circuits the
fallback), carrying a PPM reading. -/
def exMainEnvelopeBad : MainEnvelope :=
  { received_at := some "garbage", ts := some (JsVal.str "alsobad"), serial := none,
    params := some [("ppm", JsVal.num 75)] }

/-- C8: the conservative variant (Main.js) discards, with no state change at
all, every envelope that carries no parseable server timestamp; the permissive
strict variant instead falls back to client-observed time: such an envelope is
accepted with both the row timestamp and the fingerprint built from the local
reception timestamp. -/
theorem conservative_timestamp_policy :
    (∀ (st : MainState) (e : MainEnvelope),
      resolveServerTs e = none → mainMqttMessage st e = st) ∧
    (∀ (st : StrictState) (serial : Option String) (lts k : String) (v : JsVal),
      st.isFocused = true → st.skipFirst = false →
      serialMismatch serial st.serialNumber = false → isPpmKey k = true →
      makeFingerprint (some (serial.getD st.serialNumber)) k v "" lts ∉ st.clearedSet →
      makeFingerprint (some (serial.getD st.serialNumber)) k v "" lts ∉ st.seenSet →
      makeFingerprint (some (serial.getD st.serialNumber)) k v "" lts =
        (serial.getD st.serialNumber) ++ "|" ++ k ++ "|" ++ jsValToString v ++ "|" ++ lts ∧
      (strictMqttMessage st (Envelope.mk serial "" (some [(k, v)])) lts).tableData =
        ({ TIMESTAMP := lts, VALUE := displayOf v, rawKey := k, rawValue := v,
           fingerprint := makeFingerprint (some (serial.getD st.serialNumber)) k v "" lts } : Row)
          :: st.tableData.take 999) := by
  constructor
  · intro st e h
    cases hf : st.isFocused <;> simp [mainMqttMessage, hf, h]
  · intro st serial lts k v hfoc hskip hser hppm hcl hsn
    constructor
    · simp [makeFingerprint]
    · rw [strict_accept_single st serial "" lts k v hfoc hskip hser hppm hcl hsn]

/-- Closed witness for `conservative_timestamp_policy`. -/
theorem conservative_timestamp_policy_witness :
    mainMqttMessage exMainState exMainEnvelopeBad = exMainState ∧
    (strictMqttMessage exStrictState
        (Envelope.mk none "" (some [("ppm", JsVal.num 75)])) "loc-1").tableData =
      ({ TIMESTAMP := "loc-1", VALUE := displayOf (JsVal.num 75), rawKey := "ppm",
         rawValue := JsVal.num 75,
         fingerprint := makeFingerprint (some (Option.getD none exStrictState.serialNumber))
           "ppm" (JsVal.num 75) "" "loc-1" } : Row)
        :: exStrictState.tableData.take 999 :=
  ⟨conservative_timestamp_policy.1 exMainState exMainEnvelopeBad (by decide),
    (conservative_timestamp_policy.2 exStrictState none "loc-1" "ppm" (JsVal.num 75)
      rfl rfl (by decide) (by decide) (by decide) (by decide)).2⟩

/-- C10: in the strict variant, when an envelope carries no server timestamp the
fingerprint falls back to the client reception time rendered by
`toLocaleString`, which has one-second granularity: two genuinely distinct
deliveries of the same serial, key, and raw value within the same local-clock
second (different millisecond instants) produce identical fingerprints, so
only the first is accepted and the second is silently dropped as a
duplicate. -/
theorem fingerprint_second_granularity (st : StrictState) (serial : Option String)
    (k : String) (v : JsVal) (secs m1 m2 : Nat)
    (_hm : m1 ≠ m2)
    (hfoc : st.isFocused = true) (hskip : st.skipFirst = false)
    (hser : serialMismatch serial st.serialNumber = false)
    (hppm : isPpmKey k = true)
    (hcl : makeFingerprint (some (serial.getD st.serialNumber)) k v ""
      (jsToLocaleString secs m1) ∉ st.clearedSet)
    (hsn : makeFingerprint (some (serial.getD st.serialNumber)) k v ""
      (jsToLocaleString secs m1) ∉ st.seenSet)
    (hcount : fpCount st.tableData (makeFingerprint (some (serial.getD st.serialNumber)) k v ""
      (jsToLocaleString secs m1)) = 0) :
    jsToLocaleString secs m1 = jsToLocaleString secs m2 ∧
    strictMqttMessage
        (strictMqttMessage st (Envelope.mk serial "" (some [(k, v)])) (jsToLocaleString secs m1))
        (Envelope.mk serial "" (some [(k, v)])) (jsToLocaleString secs m2) =
      strictMqttMessage st (Envelope.mk serial "" (some [(k, v)])) (jsToLocaleString secs m1) ∧
    fpCount (strictMqttMessage st (Envelope.mk serial "" (some [(k, v)]))
        (jsToLocaleString secs m1)).tableData
      (makeFingerprint (some (serial.getD st.serialNumber)) k v ""
        (jsToLocaleString secs m1)) = 1 := by
  have h := strict_accept_then_dup st serial "" (jsToLocaleString secs m1) k v
    hfoc hskip hser hppm hcl hsn hcount
  exact ⟨rfl, h.1, h.2⟩

/-- Closed witness for `fingerprint_second_granularity`. -/
theorem fingerprint_second_granularity_witness :
    jsToLocaleString 7 100 = jsToLocaleString 7 900 ∧
    fpCount (strictMqttMessage exStrictState
        (Envelope.mk none "" (some [("ppm", JsVal.num 75)])) (jsToLocaleString 7 100)).tableData
      (makeFingerprint (some (Option.getD none exStrictState.serialNumber)) "ppm" (JsVal.num 75) ""
        (jsToLocaleString 7 100)) = 1 := by
  have h := fingerprint_second_granularity exStrictState none "ppm" (JsVal.num 75) 7 100 900
    (by decide) rfl rfl (by decide) (by decide) (by decide) (by decide) (by decide)
  exact ⟨h.1, h.2.2⟩
